import Mathlib

/-!
# A verification development for the bun2nix core

This file gives a shallow embedding, in Lean, of the core of the bun2nix
program (a converter from bun lockfiles to nix expressions) and proves
properties of that embedding.  Strings are modelled as lists of characters,
fallible Rust functions become functions into an explicit result type, and
Rust panics (assertion failures) are modelled as a failure outcome distinct
from returned errors.
-/

set_option maxRecDepth 100000

namespace Bun2Nix

/-- Character-list view of a Lean string literal, the representation of Rust
strings used throughout this development. -/
def chars (s : String) : List Char := s.data

/-- Model of Rust str.split_once: split at the first occurrence of the
separator character, returning the parts before and after it; if the
separator does not occur the result is none. -/
def splitOnce (c : Char) : List Char → Option (List Char × List Char)
  | [] => none
  | x :: xs =>
    if x = c then some ([], xs)
    else (splitOnce c xs).map (fun p => (x :: p.1, p.2))

theorem splitOnce_eq_none_iff (c : Char) (s : List Char) :
    splitOnce c s = none ↔ c ∉ s := by
  induction s with
  | nil => simp [splitOnce]
  | cons x xs ih =>
    by_cases hx : x = c
    · subst hx; simp [splitOnce]
    · simp [splitOnce, hx, Option.map_eq_none, ih, Ne.symm hx]

theorem splitOnce_append_of_not_mem (c : Char) (a b : List Char)
    (h : c ∉ a) : splitOnce c (a ++ c :: b) = some (a, b) := by
  induction a with
  | nil => simp [splitOnce]
  | cons x xs ih =>
    have hx : x ≠ c := by
      intro hxc; exact h (hxc ▸ List.mem_cons_self x xs)
    have hxs : c ∉ xs := fun hm => h (List.mem_cons_of_mem x hm)
    simp [splitOnce, hx, ih hxs]

theorem splitOnce_eq_some (c : Char) (s a b : List Char)
    (h : splitOnce c s = some (a, b)) : s = a ++ c :: b ∧ c ∉ a := by
  induction s generalizing a b with
  | nil => simp [splitOnce] at h
  | cons x xs ih =>
    by_cases hx : x = c
    · subst hx
      simp [splitOnce] at h
      obtain ⟨ha, hb⟩ := h
      subst ha; subst hb
      exact ⟨rfl, by simp⟩
    · cases hsplit : splitOnce c xs with
      | none => simp [splitOnce, hx, hsplit] at h
      | some p =>
        obtain ⟨a', b'⟩ := p
        simp [splitOnce, hx, hsplit] at h
        obtain ⟨ha, hb⟩ := h
        obtain ⟨hs, hmem⟩ := ih a' b' hsplit
        subst hb
        constructor
        · rw [hs, ← ha]; simp
        · rw [← ha]
          intro hc
          rcases List.mem_cons.mp hc with h1 | h2
          · exact hx h1.symm
          · exact hmem h2

/-- The unified error type of bun2nix (src/error.rs), restricted to the
variants reachable from the embedded core.  Payloads that are only
human-readable messages are kept as character lists. -/
inductive Error
  | ParseJsonc (msg : List Char)
  | ParseRustType (msg : List Char)
  | NoJsoncValue
  | NoAtInPackageIdentifier
  | PrefetchStderr (msg : List Char)
  | UnsupportedLockfileVersion (v : Nat)
  deriving DecidableEq

/-- The package source identifier (src/package/identifier.rs): a closed
variant set, each wrapping the raw identifier string from the lockfile. -/
inductive Identifier
  | Npm (spec : List Char)
  | Workspace (spec : List Char)
  | Git (spec : List Char)
  | Tarball (spec : List Char)
  deriving DecidableEq

/-- Identifier::to_npm_url (src/package/identifier.rs lines 26-46): detect a
scope by the first slash, then split name from version at the first at-sign
of the remainder; build the registry tarball URL. -/
def to_npm_url (npm_identifier : List Char) : Except Error (List Char) :=
  match splitOnce '/' npm_identifier with
  | none =>
    match splitOnce '@' npm_identifier with
    | none => .error .NoAtInPackageIdentifier
    | some (name, ver) =>
      .ok (chars "https://registry.npmjs.org/" ++ name ++ chars "/-/" ++
           name ++ chars "-" ++ ver ++ chars ".tgz")
  | some (user, name_and_ver) =>
    match splitOnce '@' name_and_ver with
    | none => .error .NoAtInPackageIdentifier
    | some (name, ver) =>
      .ok (chars "https://registry.npmjs.org/" ++ user ++ chars "/" ++ name ++
           chars "/-/" ++ name ++ chars "-" ++ ver ++ chars ".tgz")

/-- Identifier::to_http_url (src/package/identifier.rs lines 63-69): the URL
is everything after the first at-sign. -/
def to_http_url (identifier : List Char) : Except Error (List Char) :=
  match splitOnce '@' identifier with
  | none => .error .NoAtInPackageIdentifier
  | some (_, url) => .ok url

/-- Identifier::to_url (src/package/identifier.rs lines 71-78). -/
def Identifier.to_url : Identifier → Except Error (List Char)
  | .Npm npm_identifier => to_npm_url npm_identifier
  | .Workspace identifier | .Tarball identifier | .Git identifier =>
      to_http_url identifier

/-- C1: for an npm identifier, to_url yields the registry tarball URL:
an unscoped name-at-version spec maps to the registry URL with path
name, separator, name-version dot tgz, and a scoped spec keeps the scope
segment before the name in the path, as in the quick-lru example. -/
theorem to_url_npm_registry_format (scope name ver : List Char) :
    ('/' ∉ name → '@' ∉ name → '/' ∉ ver →
      Identifier.to_url (.Npm (name ++ '@' :: ver)) =
        .ok (chars "https://registry.npmjs.org/" ++ name ++ chars "/-/" ++
             name ++ chars "-" ++ ver ++ chars ".tgz")) ∧
    ('/' ∉ scope → '@' ∉ name →
      Identifier.to_url (.Npm (scope ++ '/' :: (name ++ '@' :: ver))) =
        .ok (chars "https://registry.npmjs.org/" ++ scope ++ chars "/" ++
             name ++ chars "/-/" ++ name ++ chars "-" ++ ver ++
             chars ".tgz")) := by
  constructor
  · intro h1 h2 h3
    have hslash : '/' ∉ name ++ '@' :: ver := by
      intro hm
      rcases List.mem_append.mp hm with h | h
      · exact h1 h
      · rcases List.mem_cons.mp h with h | h
        · exact absurd h (by decide)
        · exact h3 h
    have hs : splitOnce '/' (name ++ '@' :: ver) = none :=
      (splitOnce_eq_none_iff _ _).mpr hslash
    have ha : splitOnce '@' (name ++ '@' :: ver) = some (name, ver) :=
      splitOnce_append_of_not_mem _ _ _ h2
    simp [Identifier.to_url, to_npm_url, hs, ha]
  · intro h1 h2
    have hs : splitOnce '/' (scope ++ '/' :: (name ++ '@' :: ver)) =
        some (scope, name ++ '@' :: ver) :=
      splitOnce_append_of_not_mem _ _ _ h1
    have ha : splitOnce '@' (name ++ '@' :: ver) = some (name, ver) :=
      splitOnce_append_of_not_mem _ _ _ h2
    simp [Identifier.to_url, to_npm_url, hs, ha]

/-- Witness for C1 at the spec's concrete example and at an unscoped
example. -/
theorem to_url_npm_registry_format_witness :
    (chars "@alloc" ++ '/' :: (chars "quick-lru" ++ '@' :: chars "5.2.0") =
      chars "@alloc/quick-lru@5.2.0") ∧
    Identifier.to_url
        (.Npm (chars "@alloc" ++ '/' :: (chars "quick-lru" ++ '@' :: chars "5.2.0"))) =
      .ok (chars "https://registry.npmjs.org/" ++ chars "@alloc" ++ chars "/" ++
           chars "quick-lru" ++ chars "/-/" ++ chars "quick-lru" ++ chars "-" ++
           chars "5.2.0" ++ chars ".tgz") ∧
    Identifier.to_url (.Npm (chars "bun-types" ++ '@' :: chars "1.2.4")) =
      .ok (chars "https://registry.npmjs.org/" ++ chars "bun-types" ++ chars "/-/" ++
           chars "bun-types" ++ chars "-" ++ chars "1.2.4" ++ chars ".tgz") := by
  refine ⟨by decide, ?_, ?_⟩
  · exact (to_url_npm_registry_format (chars "@alloc") (chars "quick-lru")
      (chars "5.2.0")).2 (by decide) (by decide)
  · exact (to_url_npm_registry_format [] (chars "bun-types")
      (chars "1.2.4")).1 (by decide) (by decide) (by decide)

/-- C5: for every Identifier variant, a wrapped spec with no at-sign makes
to_url fail with the missing-separator error NoAtInPackageIdentifier. -/
theorem to_url_no_at_fails (s : List Char) (h : '@' ∉ s) :
    Identifier.to_url (.Npm s) = .error .NoAtInPackageIdentifier ∧
    Identifier.to_url (.Workspace s) = .error .NoAtInPackageIdentifier ∧
    Identifier.to_url (.Git s) = .error .NoAtInPackageIdentifier ∧
    Identifier.to_url (.Tarball s) = .error .NoAtInPackageIdentifier := by
  have hhttp : to_http_url s = .error .NoAtInPackageIdentifier := by
    have : splitOnce '@' s = none := (splitOnce_eq_none_iff _ _).mpr h
    simp [to_http_url, this]
  refine ⟨?_, hhttp, hhttp, hhttp⟩
  cases hs : splitOnce '/' s with
  | none =>
    have : splitOnce '@' s = none := (splitOnce_eq_none_iff _ _).mpr h
    simp [Identifier.to_url, to_npm_url, hs, this]
  | some p =>
    obtain ⟨u, nv⟩ := p
    obtain ⟨hseq, -⟩ := splitOnce_eq_some _ _ _ _ hs
    have hnv : '@' ∉ nv := by
      intro hm
      exact h (hseq ▸ List.mem_append.mpr (Or.inr (List.mem_cons_of_mem _ hm)))
    have : splitOnce '@' nv = none := (splitOnce_eq_none_iff _ _).mpr hnv
    simp [Identifier.to_url, to_npm_url, hs, this]

/-- Witness for C5 at a concrete at-free spec, for all four variants. -/
theorem to_url_no_at_fails_witness :
    Identifier.to_url (.Npm (chars "no-at-here")) =
      .error .NoAtInPackageIdentifier ∧
    Identifier.to_url (.Workspace (chars "no-at-here")) =
      .error .NoAtInPackageIdentifier ∧
    Identifier.to_url (.Git (chars "no-at-here")) =
      .error .NoAtInPackageIdentifier ∧
    Identifier.to_url (.Tarball (chars "no-at-here")) =
      .error .NoAtInPackageIdentifier :=
  to_url_no_at_fails (chars "no-at-here") (by decide)

/-- Substring test, the model of Rust str.contains with a string pattern:
the needle is a prefix of some suffix of the haystack. -/
def containsSubstr (needle : List Char) : List Char → Bool
  | [] => needle.isEmpty
  | c :: rest => needle.isPrefixOf (c :: rest) || containsSubstr needle rest

/-- A model of the results returned by the nix prefetch command
(src/prefetch.rs lines 10-17). -/
structure PrefetchedPackage where
  hash : List Char
  url : List Char
  name : List Char
  deriving DecidableEq

/-- Model of the Rust expression rsplitn(2, c).last(): the part of the list
before the last occurrence of c, or the whole list when c is absent; the
iterator is never empty, so the result is always some value. -/
def rsplitn2Last (c : Char) (s : List Char) : Option (List Char) :=
  match splitOnce c s.reverse with
  | none => some s
  | some (_, rest) => some rest.reverse

/-- PrefetchedPackage::get_name_strip_version (src/prefetch.rs lines 54-60):
dispatch on the number of at-signs in the name; one at-sign keeps the part
before it, two keep everything before the last one, anything else is the
missing-separator error. -/
def get_name_strip_version (name : List Char) : Except Error (List Char) :=
  match List.count '@' name with
  | 1 =>
    match splitOnce '@' name with
    | none => .error .NoAtInPackageIdentifier
    | some (n, _) => .ok n
  | 2 =>
    match rsplitn2Last '@' name with
    | none => .error .NoAtInPackageIdentifier
    | some n => .ok n
  | _ => .error .NoAtInPackageIdentifier

/-- The destination name rendered in a fetch block
(src/prefetch.rs line 87): the stripped name, or on failure the full
unmodified name, as in unwrap_or. -/
def strip_or_full (name : List Char) : List Char :=
  match get_name_strip_version name with
  | .ok n => n
  | .error _ => name

/-- The rendered fetch block for one package, the format template of
src/prefetch.rs lines 78-88. -/
def fetchBlockOf (p : PrefetchedPackage) : List Char :=
  chars "    \x7b\n      name = \"" ++ strip_or_full p.name ++
  chars "\";\n      path = fetchurl \x7b\n        name = \"" ++ p.name ++
  chars "\";\n        url  = \"" ++ p.url ++
  chars "\";\n        hash = \"" ++ p.hash ++
  chars "\";\n      \x7d;\n    \x7d"

/-- PrefetchedPackage::dump_nix_expression (src/prefetch.rs lines 73-90).
The two assertions on the hash (length exactly 51 and containing the
substring sha256) are modelled by returning none, the panic outcome, when
either fails. -/
def dump_nix_expression (p : PrefetchedPackage) : Option (List Char) :=
  if p.hash.length = 51 ∧ containsSubstr (chars "sha256") p.hash then
    some (fetchBlockOf p)
  else none

/-- The text of the vector template before the packages section
(src/prefetch.rs lines 100-112). -/
def vecTemplateHeader : List Char :=
  chars "# This file was autogenerated by `bun2nix`, editing it is not recommended.\n# Consume it with `callPackage` in your actual derivation -> https://nixos-and-flakes.thiscute.world/nixpkgs/callpackage\n\x7b\n  fetchurl,\n  gnutar,\n  coreutils,\n  runCommand,\n  symlinkJoin,\n\x7d: let\n  # Bun packages to install\n  packages = [\n"

/-- The text of the vector template after the packages section
(src/prefetch.rs lines 113-130). -/
def vecTemplateFooter : List Char :=
  chars "\n  ];\n\n  # Extract a package from a tar file\n  extractPackage = pkg:\n    runCommand \"bun2nix-extract-$\x7bpkg.name\x7d\" \x7bbuildInputs = [gnutar coreutils];\x7d ''\n      mkdir -p $out/$\x7bpkg.name\x7d\n      tar -xzf $\x7bpkg.path\x7d -C $out/$\x7bpkg.name\x7d --strip-components=1\n    '';\n\n  # Build the node modules directory\n  nodeModules = symlinkJoin \x7b\n    name = \"node-modules\";\n    paths = map extractPackage packages;\n  \x7d;\nin \x7b\n  inherit nodeModules packages;\n\x7d"

/-- The renderer for a whole package list (src/prefetch.rs lines 92-132):
dump each package in input order, join the blocks with newlines (the
reduce with unwrap_or_default is newline intercalation, yielding the empty
section for an empty list), and splice the section into the template.  A
panic in any single dump propagates, modelled by none. -/
def dump_nix_expression_vec (ps : List PrefetchedPackage) : Option (List Char) :=
  (ps.mapM dump_nix_expression).map
    (fun blocks =>
      vecTemplateHeader ++ List.intercalate (chars "\n") blocks ++
        vecTemplateFooter)

/-- The repo test expected text for a single block
(src/prefetch.rs lines 152-170), reproduced here to validate the template
transcription against the source unit test. -/
theorem dump_single_matches_repo_test :
    dump_nix_expression
      ⟨chars "sha256-w/Huz4+crTzdiSyQVAx0h3lhtTTrtPyKp3xpQD5EG9g=",
       chars "https://registry.npmjs.org/@alloc/quick-lru/-/quick-lru-5.2.0.tgz",
       chars "@alloc/quick-lru@5.2.0"⟩ =
    some (chars "    \x7b\n      name = \"@alloc/quick-lru\";\n      path = fetchurl \x7b\n        name = \"@alloc/quick-lru@5.2.0\";\n        url  = \"https://registry.npmjs.org/@alloc/quick-lru/-/quick-lru-5.2.0.tgz\";\n        hash = \"sha256-w/Huz4+crTzdiSyQVAx0h3lhtTTrtPyKp3xpQD5EG9g=\";\n      \x7d;\n    \x7d") := by
  decide

/-- C10: the outer destination name of a fetch block is the package name
with its version suffix stripped: exactly one at-sign keeps the part before
it, exactly two at-signs keep everything before the last one, and with zero
or three-or-more at-signs stripping fails and the full unmodified name is
rendered instead. -/
theorem strip_version_cases (a b name : List Char) :
    ('@' ∉ a → '@' ∉ b →
        get_name_strip_version (a ++ '@' :: b) = .ok a) ∧
    (List.count '@' a = 1 → '@' ∉ b →
        get_name_strip_version (a ++ '@' :: b) = .ok a) ∧
    ((List.count '@' name = 0 ∨ 3 ≤ List.count '@' name) →
        get_name_strip_version name = .error .NoAtInPackageIdentifier ∧
        strip_or_full name = name) := by
  refine ⟨?_, ?_, ?_⟩
  · intro h1 h2
    have hc : List.count '@' (a ++ '@' :: b) = 1 := by
      simp [List.count_append, List.count_cons, List.count_eq_zero.mpr h1,
        List.count_eq_zero.mpr h2]
    simp [get_name_strip_version, hc, splitOnce_append_of_not_mem _ _ _ h1]
  · intro h1 h2
    have hc : List.count '@' (a ++ '@' :: b) = 2 := by
      simp [List.count_append, List.count_cons, h1,
        List.count_eq_zero.mpr h2]
    have hrev : (a ++ '@' :: b).reverse = b.reverse ++ '@' :: a.reverse := by
      simp
    have h2r : '@' ∉ b.reverse := by simpa using h2
    have hsplit : splitOnce '@' (b.reverse ++ '@' :: a.reverse) =
        some (b.reverse, a.reverse) :=
      splitOnce_append_of_not_mem _ _ _ h2r
    simp [get_name_strip_version, hc, rsplitn2Last, hrev, hsplit]
  · intro hc
    have herr : get_name_strip_version name = .error .NoAtInPackageIdentifier := by
      rcases hc with h0 | h3
      · simp [get_name_strip_version, h0]
      · obtain ⟨m, hm⟩ : ∃ m, List.count '@' name = m + 3 :=
          ⟨List.count '@' name - 3, by omega⟩
        simp [get_name_strip_version, hm]
    exact ⟨herr, by simp [strip_or_full, herr]⟩

/-- Witness for C10 at concrete names with one, two, zero and three
at-signs. -/
theorem strip_version_cases_witness :
    get_name_strip_version (chars "quick-lru" ++ '@' :: chars "5.2.0") =
      .ok (chars "quick-lru") ∧
    get_name_strip_version (chars "@alloc/quick-lru" ++ '@' :: chars "5.2.0") =
      .ok (chars "@alloc/quick-lru") ∧
    (get_name_strip_version (chars "noversion") =
        .error .NoAtInPackageIdentifier ∧
      strip_or_full (chars "noversion") = chars "noversion") ∧
    (get_name_strip_version (chars "a@b@c@d") =
        .error .NoAtInPackageIdentifier ∧
      strip_or_full (chars "a@b@c@d") = chars "a@b@c@d") := by
  refine ⟨?_, ?_, ?_, ?_⟩
  · exact (strip_version_cases (chars "quick-lru") (chars "5.2.0") []).1
      (by decide) (by decide)
  · exact (strip_version_cases (chars "@alloc/quick-lru") (chars "5.2.0") []).2.1
      (by decide) (by decide)
  · exact (strip_version_cases [] [] (chars "noversion")).2.2 (Or.inl (by decide))
  · exact (strip_version_cases [] [] (chars "a@b@c@d")).2.2 (Or.inr (by decide))

/-- Modelled from the words of the spec, for comparison with the check the
code performs: the SRI content-hash shape, sha256 dash followed by 44
base64 characters, 51 characters total. -/
def sriShapeSpec (h : List Char) : Bool :=
  decide (h.length = 51) && List.isPrefixOf (chars "sha256-") h &&
  (h.drop 7).all (fun c => c.isAlphanum || c = '+' || c = '/' || c = '=')

/-- Counterexample for C3: a hash of length 51 that contains the substring
sha256 but is not of the SRI shape (wrong seventh character, non-base64
tail) passes both assertions and is passed through into the generated
output. -/
theorem dump_accepts_non_sri_hash :
    dump_nix_expression
        ⟨chars "sha256" ++ List.replicate 45 '!', chars "u", chars "a@1"⟩ =
      some (fetchBlockOf
        ⟨chars "sha256" ++ List.replicate 45 '!', chars "u", chars "a@1"⟩) ∧
    containsSubstr (chars "sha256" ++ List.replicate 45 '!')
      (fetchBlockOf
        ⟨chars "sha256" ++ List.replicate 45 '!', chars "u", chars "a@1"⟩) = true ∧
    sriShapeSpec (chars "sha256" ++ List.replicate 45 '!') = false := by
  refine ⟨by decide, by decide, by decide⟩

/-- C3 as amended: the renderer gates a package on its hash having length
exactly 51 and containing the substring sha256; a hash passing that check
reaches the output verbatim, and a hash failing it is fatal, producing no
output at all. -/
theorem dump_hash_guard (p : PrefetchedPackage) :
    (∀ s, dump_nix_expression p = some s →
        p.hash.length = 51 ∧ containsSubstr (chars "sha256") p.hash = true ∧
        List.IsInfix p.hash s) ∧
    (¬ (p.hash.length = 51 ∧ containsSubstr (chars "sha256") p.hash = true) →
        dump_nix_expression p = none) := by
  constructor
  · intro s hs
    by_cases hcond : p.hash.length = 51 ∧
        containsSubstr (chars "sha256") p.hash = true
    · obtain ⟨h1, h2⟩ := hcond
      refine ⟨h1, h2, ?_⟩
      have hblock : fetchBlockOf p = s := by
        simpa [dump_nix_expression, h1, h2] using hs
      rw [← hblock]
      refine ⟨chars "    \x7b\n      name = \"" ++ strip_or_full p.name ++
        chars "\";\n      path = fetchurl \x7b\n        name = \"" ++ p.name ++
        chars "\";\n        url  = \"" ++ p.url ++
        chars "\";\n        hash = \"",
        chars "\";\n      \x7d;\n    \x7d", ?_⟩
      simp [fetchBlockOf, List.append_assoc]
    · rw [show dump_nix_expression p = none by
        simp only [dump_nix_expression]; rw [if_neg hcond]] at hs
      exact absurd hs (by simp)
  · intro hcond
    simp only [dump_nix_expression]
    rw [if_neg hcond]

/-- Witness for C3 as amended: a bad short hash yields no output, and the
repo test package's valid hash reaches the rendered block verbatim. -/
theorem dump_hash_guard_witness :
    dump_nix_expression ⟨chars "sha256-short", chars "u", chars "a@1"⟩ = none ∧
    ((chars "sha256-w/Huz4+crTzdiSyQVAx0h3lhtTTrtPyKp3xpQD5EG9g=").length = 51 ∧
      containsSubstr (chars "sha256")
        (chars "sha256-w/Huz4+crTzdiSyQVAx0h3lhtTTrtPyKp3xpQD5EG9g=") = true ∧
      List.IsInfix (chars "sha256-w/Huz4+crTzdiSyQVAx0h3lhtTTrtPyKp3xpQD5EG9g=")
        (chars "    \x7b\n      name = \"@alloc/quick-lru\";\n      path = fetchurl \x7b\n        name = \"@alloc/quick-lru@5.2.0\";\n        url  = \"https://registry.npmjs.org/@alloc/quick-lru/-/quick-lru-5.2.0.tgz\";\n        hash = \"sha256-w/Huz4+crTzdiSyQVAx0h3lhtTTrtPyKp3xpQD5EG9g=\";\n      \x7d;\n    \x7d")) := by
  constructor
  · exact (dump_hash_guard ⟨chars "sha256-short", chars "u", chars "a@1"⟩).2
      (by decide)
  · exact (dump_hash_guard
      ⟨chars "sha256-w/Huz4+crTzdiSyQVAx0h3lhtTTrtPyKp3xpQD5EG9g=",
       chars "https://registry.npmjs.org/@alloc/quick-lru/-/quick-lru-5.2.0.tgz",
       chars "@alloc/quick-lru@5.2.0"⟩).1 _ (by decide)

/-- A valid prefetched package used as concrete renderer input. -/
def cxPkgA : PrefetchedPackage :=
  ⟨chars "sha256-" ++ List.replicate 44 'A', chars "uA", chars "aaa@1"⟩

/-- A second valid prefetched package, differing from cxPkgA only in
equal-length fields. -/
def cxPkgB : PrefetchedPackage :=
  ⟨chars "sha256-" ++ List.replicate 44 'B', chars "uB", chars "bbb@1"⟩

/-- A third valid prefetched package used as concrete renderer input. -/
def cxPkgC : PrefetchedPackage :=
  ⟨chars "sha256-" ++ List.replicate 44 'C', chars "uC", chars "ccc@1"⟩

/-- A fourth valid prefetched package, differing from cxPkgC only in
equal-length fields. -/
def cxPkgD : PrefetchedPackage :=
  ⟨chars "sha256-" ++ List.replicate 44 'D', chars "uD", chars "ddd@1"⟩

/-- Counterexample for C2: the renderer imposes no order, so presenting the
same two valid packages in the two possible orders yields different output
text. -/
theorem dump_vec_not_order_invariant :
    dump_nix_expression_vec [cxPkgA, cxPkgB] ≠
      dump_nix_expression_vec [cxPkgB, cxPkgA] := by
  decide

/-- C2 as amended: the renderer imposes no order before rendering: for
packages whose hashes pass the renderer's checks, the output is exactly
the fixed template with the per-package fetch blocks joined by newlines in
input order.  The output is thus a pure function of the input sequence;
permuting the input permutes the blocks in place, which can change the
output bytes, as the counterexample shows. -/
theorem dump_vec_renders_in_input_order (ps : List PrefetchedPackage)
    (h : ∀ p ∈ ps, p.hash.length = 51 ∧
      containsSubstr (chars "sha256") p.hash = true) :
    dump_nix_expression_vec ps =
      some (vecTemplateHeader ++
        List.intercalate (chars "\n") (ps.map fetchBlockOf) ++
        vecTemplateFooter) := by
  have hm : ∀ (qs : List PrefetchedPackage),
      (∀ p ∈ qs, p.hash.length = 51 ∧
        containsSubstr (chars "sha256") p.hash = true) →
      qs.mapM dump_nix_expression = some (qs.map fetchBlockOf) := by
    intro qs
    induction qs with
    | nil => intro _; rfl
    | cons p rest ih =>
      intro hq
      have hp := hq p (List.mem_cons_self p rest)
      have hdump : dump_nix_expression p = some (fetchBlockOf p) := by
        simp [dump_nix_expression, hp.1, hp.2]
      have hrest := ih (fun q hqr => hq q (List.mem_cons_of_mem p hqr))
      rw [List.mapM_cons, hdump, hrest]
      rfl
  unfold dump_nix_expression_vec
  rw [hm ps h]
  rfl

/-- Witness for C2 as amended, at two concrete valid packages. -/
theorem dump_vec_renders_in_input_order_witness :
    dump_nix_expression_vec [cxPkgC, cxPkgD] =
      some (vecTemplateHeader ++
        List.intercalate (chars "\n") (List.map fetchBlockOf [cxPkgC, cxPkgD]) ++
        vecTemplateFooter) :=
  dump_vec_renders_in_input_order [cxPkgC, cxPkgD] (by decide)

/-- A minimal model of parsed JSON values, sufficient for the document
shapes the lockfile deserializer inspects. -/
inductive Json
  | null
  | bool (b : Bool)
  | num (n : Int)
  | str (s : List Char)
  | arr (xs : List Json)
  | obj (fields : List (List Char × Json))

/-- Model of serde_json Value::as_str. -/
def Json.asStr : Json → Option (List Char)
  | .str s => some s
  | _ => .none

/-- The outcome of a deserialization step: a structural serde error
returned to the caller, or a Rust assertion panic, which aborts the
process instead of being returned as an error value. -/
inductive DeFailure
  | deError (msg : List Char)
  | panicked (msg : List Char)
  deriving DecidableEq

/-- The raw binaries declaration of a package (src/lockfile.rs lines
231-238): an untagged variant inferred structurally from the JSON shape. -/
inductive Binaries
  | none
  | unnamed (path : List Char)
  | named (map : List (List Char × List Char))
  deriving DecidableEq

/-- Untagged deserialization of Binaries: null is the absent form, a bare
string the unnamed form, an object of strings the named form. -/
def binariesFromJson : Json → Except (List Char) Binaries
  | .null => .ok .none
  | .str s => .ok (.unnamed s)
  | .obj fields =>
    match fields.mapM (fun f => (f.2.asStr).map (fun v => (f.1, v))) with
    | some m => .ok (.named m)
    | .none => .error (chars "data did not match any variant of untagged enum Binaries")
  | _ => .error (chars "data did not match any variant of untagged enum Binaries")

/-- Transient per-entry metadata (src/lockfile.rs lines 223-229); every
field has a serde default. -/
structure MetaData where
  peer_dependencies : List (List Char × List Char)
  optional_peers : List (List Char)
  bin : Binaries
  deriving DecidableEq

/-- Look up a field of a JSON object by key. -/
def lookupField (fields : List (List Char × Json)) (k : List Char) : Option Json :=
  (fields.find? (fun f => f.1 == k)).map (fun f => f.2)

/-- Deserialize a JSON object whose values are all strings. -/
def strMapFromJson : Json → Except (List Char) (List (List Char × List Char))
  | .obj fields =>
    match fields.mapM (fun f => (f.2.asStr).map (fun v => (f.1, v))) with
    | some m => .ok m
    | .none => .error (chars "invalid type: expected a string value")
  | _ => .error (chars "invalid type: expected a map")

/-- Deserialize a JSON array of strings. -/
def strListFromJson : Json → Except (List Char) (List (List Char))
  | .arr xs =>
    match xs.mapM Json.asStr with
    | some l => .ok l
    | .none => .error (chars "invalid type: expected a string element")
  | _ => .error (chars "invalid type: expected a sequence")

/-- Deserialize MetaData from a JSON value: an object with camelCase keys,
each field defaulted when absent; any other shape is a serde error. -/
def metaFromJson : Json → Except (List Char) MetaData
  | .obj fields => do
    let peers ← match lookupField fields (chars "peerDependencies") with
      | some v => strMapFromJson v
      | .none => .ok []
    let opt ← match lookupField fields (chars "optionalPeers") with
      | some v => strListFromJson v
      | .none => .ok []
    let bin ← match lookupField fields (chars "bin") with
      | some v => binariesFromJson v
      | .none => .ok .none
    .ok ⟨peers, opt, bin⟩
  | _ => .error (chars "invalid type: expected a metadata map")

/-- A package in the Extracted lifecycle state (src/package.rs lines 25-61):
hash, name, identifier, and the raw binaries carried by the state. -/
structure PackageE where
  hash : Option (List Char)
  name : List Char
  identifier : Identifier
  binaries : Binaries
  deriving DecidableEq

/-- PackageVisitor::deserialize_workspace_package
(src/lockfile/package_visitor.rs lines 77-105): the identifier must be a
string, and the assert that it contains the substring workspace: is
modelled as the panic outcome. -/
def deserialize_workspace_package (name : List Char) (values : List Json) :
    Except DeFailure PackageE :=
  match (values.getD 0 .null).asStr with
  | .none => .error (.deError (chars "Invalid workspace identifer format"))
  | some identifier =>
    if containsSubstr (chars "workspace:") identifier then
      .ok ⟨.none, name, .Workspace identifier, .none⟩
    else
      .error (.panicked (chars "Expected workspace package to contain `workspace:`"))

/-- PackageVisitor::deserialize_tarball_package
(src/lockfile/package_visitor.rs lines 49-75). -/
def deserialize_tarball_package (name : List Char) (values : List Json) :
    Except DeFailure PackageE :=
  match (values.getD 0 .null).asStr with
  | .none => .error (.deError (chars "Invalid tarball identifer format"))
  | some identifier =>
    match metaFromJson (values.getD 1 .null) with
    | .error e => .error (.deError (chars "Invalid metadata format: " ++ e))
    | .ok meta => .ok ⟨.none, name, .Tarball identifier, meta.bin⟩

/-- PackageVisitor::deserialize_npm_package
(src/lockfile/package_visitor.rs lines 107-139): identifier from slot 0,
metadata from slot 2, hash from slot 3; the assert that the hash contains
the substring sha512- is modelled as the panic outcome. -/
def deserialize_npm_package (name : List Char) (values : List Json) :
    Except DeFailure PackageE :=
  match (values.getD 0 .null).asStr with
  | .none => .error (.deError (chars "Invalid npm identifier format"))
  | some identifier =>
    match metaFromJson (values.getD 2 .null) with
    | .error e => .error (.deError (chars "Invalid metadata format: " ++ e))
    | .ok meta =>
      match (values.getD 3 .null).asStr with
      | .none => .error (.deError (chars "Invalid hash format"))
      | some hash =>
        if containsSubstr (chars "sha512-") hash then
          .ok ⟨some hash, name, .Npm identifier, meta.bin⟩
        else
          .error (.panicked
            (chars "Expected hash to be in sri format and contain sha512"))

/-- PackageVisitor::deserialize_git_package
(src/lockfile/package_visitor.rs lines 141-171): identifier from slot 0,
metadata from slot 1, and the git revision string from slot 2 stored in
the hash field of the produced package. -/
def deserialize_git_package (name : List Char) (values : List Json) :
    Except DeFailure PackageE :=
  match (values.getD 0 .null).asStr with
  | .none => .error (.deError (chars "Invalid git identifer format"))
  | some identifier =>
    match metaFromJson (values.getD 1 .null) with
    | .error e => .error (.deError (chars "Invalid metadata format: " ++ e))
    | .ok meta =>
      match (values.getD 2 .null).asStr with
      | .none => .error (.deError (chars "Invalid rev format"))
      | some rev => .ok ⟨some rev, name, .Git identifier, meta.bin⟩

/-- PackageVisitor::visit_map (src/lockfile/package_visitor.rs lines
23-45): dispatch each entry by the length of its value array; the first
failing entry aborts the whole visit. -/
def visitPackages : List (List Char × List Json) → Except DeFailure (List PackageE)
  | [] => .ok []
  | (name, values) :: rest => do
    let p ← match values.length with
      | 1 => deserialize_workspace_package name values
      | 2 => deserialize_tarball_package name values
      | 3 => deserialize_git_package name values
      | 4 => deserialize_npm_package name values
      | _ => .error (.deError (chars "Invalid package entry for " ++ name ++
          chars ": expected at least 4 values"))
    let ps ← visitPackages rest
    .ok (p :: ps)

/-- Counterexample for C4: at concrete malformed entries the workspace and
npm structural checks fail with the assertion-panic outcome, not a
structural-format error value returned to the caller. -/
theorem structural_checks_are_asserts :
    deserialize_workspace_package (chars "my-app") [Json.str (chars "1.0.0")] =
      .error (.panicked (chars "Expected workspace package to contain `workspace:`")) ∧
    deserialize_npm_package (chars "leftpad")
        [Json.str (chars "leftpad@1.0.0"), Json.str [], Json.obj [],
         Json.str (chars "sha256-bogus")] =
      .error (.panicked
        (chars "Expected hash to be in sri format and contain sha512")) := by
  constructor <;> rfl

/-- C4 as amended: a length-1 entry whose identifier lacks the substring
workspace:, or a length-4 entry whose hash lacks sha512-, is neither
silently skipped nor accepted: deserialization of the whole map aborts at
that entry, but through an assertion panic rather than a returned
structural-format error. -/
theorem structural_checks_abort_not_skip (name id hash : List Char)
    (mj : Json) (m : MetaData) (rest : List (List Char × List Json)) :
    (containsSubstr (chars "workspace:") id = false →
        deserialize_workspace_package name [Json.str id] =
          .error (.panicked
            (chars "Expected workspace package to contain `workspace:`")) ∧
        visitPackages ((name, [Json.str id]) :: rest) =
          .error (.panicked
            (chars "Expected workspace package to contain `workspace:`"))) ∧
    (metaFromJson mj = .ok m → containsSubstr (chars "sha512-") hash = false →
        deserialize_npm_package name [Json.str id, Json.str [], mj, Json.str hash] =
          .error (.panicked
            (chars "Expected hash to be in sri format and contain sha512")) ∧
        visitPackages ((name, [Json.str id, Json.str [], mj, Json.str hash]) :: rest) =
          .error (.panicked
            (chars "Expected hash to be in sri format and contain sha512"))) := by
  constructor
  · intro hid
    have h1 : deserialize_workspace_package name [Json.str id] =
        .error (.panicked
          (chars "Expected workspace package to contain `workspace:`")) := by
      simp [deserialize_workspace_package, Json.asStr, hid]
    exact ⟨h1, by simp [visitPackages, h1, Bind.bind, Except.bind]⟩
  · intro hm hh
    have h1 : deserialize_npm_package name
        [Json.str id, Json.str [], mj, Json.str hash] =
        .error (.panicked
          (chars "Expected hash to be in sri format and contain sha512")) := by
      simp [deserialize_npm_package, Json.asStr, hm, hh]
    exact ⟨h1, by simp [visitPackages, h1, Bind.bind, Except.bind]⟩

/-- Witness for C4 as amended at a concrete workspace entry and a concrete
npm entry. -/
theorem structural_checks_abort_not_skip_witness :
    (deserialize_workspace_package (chars "app") [Json.str (chars "file:app")] =
        .error (.panicked
          (chars "Expected workspace package to contain `workspace:`")) ∧
      visitPackages [(chars "app", [Json.str (chars "file:app")])] =
        .error (.panicked
          (chars "Expected workspace package to contain `workspace:`"))) ∧
    (deserialize_npm_package (chars "react")
        [Json.str (chars "react@19.0.0"), Json.str [], Json.obj [],
         Json.str (chars "md5-0123")] =
        .error (.panicked
          (chars "Expected hash to be in sri format and contain sha512")) ∧
      visitPackages [(chars "react",
          [Json.str (chars "react@19.0.0"), Json.str [], Json.obj [],
           Json.str (chars "md5-0123")])] =
        .error (.panicked
          (chars "Expected hash to be in sri format and contain sha512"))) := by
  constructor
  · exact (structural_checks_abort_not_skip (chars "app") (chars "file:app")
      [] (Json.obj []) ⟨[], [], .none⟩ []).1 (by decide)
  · exact (structural_checks_abort_not_skip (chars "react") (chars "react@19.0.0")
      (chars "md5-0123") (Json.obj []) ⟨[], [], .none⟩ []).2 rfl (by decide)

/-- C9: a length-3 git entry stores the third array element, the git
revision string, unchanged in the hash field of the produced package, so
the hash holds a raw revision; whenever that revision is not of the SRI
content-hash shape, neither is the stored hash. -/
theorem git_package_hash_is_revision (name id rev : List Char)
    (mj : Json) (m : MetaData) (hm : metaFromJson mj = .ok m) :
    deserialize_git_package name [Json.str id, mj, Json.str rev] =
      .ok ⟨some rev, name, .Git id, m.bin⟩ ∧
    (sriShapeSpec rev = false →
      (PackageE.hash ⟨some rev, name, .Git id, m.bin⟩).map sriShapeSpec =
        some false) := by
  constructor
  · simp [deserialize_git_package, Json.asStr, hm]
  · intro hrev
    simp [hrev]

/-- Witness for C9 at a concrete git entry with a 40-character hexadecimal
revision. -/
theorem git_package_hash_is_revision_witness :
    deserialize_git_package (chars "is-even-min")
        [Json.str (chars "is-even-min@git+ssh://gitlab.com/iamashley0/is-even-min.git#0af22132d7abba2b7c4bb94f1887ca30b1b102aa"),
         Json.obj [],
         Json.str (chars "0af22132d7abba2b7c4bb94f1887ca30b1b102aa")] =
      .ok ⟨some (chars "0af22132d7abba2b7c4bb94f1887ca30b1b102aa"),
           chars "is-even-min",
           .Git (chars "is-even-min@git+ssh://gitlab.com/iamashley0/is-even-min.git#0af22132d7abba2b7c4bb94f1887ca30b1b102aa"),
           .none⟩ ∧
    (PackageE.hash ⟨some (chars "0af22132d7abba2b7c4bb94f1887ca30b1b102aa"),
           chars "is-even-min",
           .Git (chars "is-even-min@git+ssh://gitlab.com/iamashley0/is-even-min.git#0af22132d7abba2b7c4bb94f1887ca30b1b102aa"),
           .none⟩).map sriShapeSpec = some false := by
  obtain ⟨h1, h2⟩ := git_package_hash_is_revision (chars "is-even-min")
    (chars "is-even-min@git+ssh://gitlab.com/iamashley0/is-even-min.git#0af22132d7abba2b7c4bb94f1887ca30b1b102aa")
    (chars "0af22132d7abba2b7c4bb94f1887ca30b1b102aa")
    (Json.obj []) ⟨[], [], .none⟩ rfl
  exact ⟨h1, h2 (by decide)⟩

/-- The lockfile package record of the cache-era flow (src/lockfile.rs line
172): a tuple of the identifier string, a second string field, the entry
metadata and a fourth string field.  Hash and equality are by field 0 only
(src/lockfile.rs lines 209-221), so field 0 is the package identity used
for deduplication, and it is also the name passed on to the prefetcher. -/
structure PackageT where
  ident0 : List Char
  field1 : List Char
  meta2 : MetaData
  field3 : List Char
  deriving DecidableEq

/-- One HashSet insertion step: an element whose key is already present is
dropped, keeping the first occurrence. -/
def insertByKey (acc : List PackageT) (p : PackageT) : List PackageT :=
  if acc.any (fun q => q.ident0 == p.ident0) then acc else acc ++ [p]

/-- Model of into_values().collect::<HashSet<_>>() in
Lockfile::prefetch_packages (src/lockfile.rs line 50), as the sequence of
set insertions under the field-0 equality of the source impl.  Set
iteration order is immaterial to the multiplicity facts proved below. -/
def collectByKey (l : List PackageT) : List PackageT :=
  l.foldl insertByKey []

theorem insertByKey_countP_le (acc : List PackageT) (p : PackageT)
    (k : List Char) (h : acc.countP (fun q => q.ident0 == k) ≤ 1) :
    (insertByKey acc p).countP (fun q => q.ident0 == k) ≤ 1 := by
  unfold insertByKey
  split
  · exact h
  · next hany =>
    rw [List.countP_append]
    by_cases hpk : p.ident0 = k
    · have hzero : acc.countP (fun q => q.ident0 == k) = 0 := by
        rw [List.countP_eq_zero]
        intro q hq
        have := (List.any_eq_false.mp (Bool.of_not_eq_true hany)) q hq
        simpa [hpk] using this
      simp [hzero, List.countP_singleton, hpk]
    · simp [List.countP_singleton, hpk, h]

theorem foldl_insertByKey_countP_le (l : List PackageT)
    (acc : List PackageT) (k : List Char)
    (h : acc.countP (fun q => q.ident0 == k) ≤ 1) :
    (l.foldl insertByKey acc).countP (fun q => q.ident0 == k) ≤ 1 := by
  induction l generalizing acc with
  | nil => simpa using h
  | cons p l ih =>
    simp only [List.foldl_cons]
    exact ih _ (insertByKey_countP_le acc p k h)

theorem foldl_insertByKey_countP_pos (l : List PackageT)
    (acc : List PackageT) (k : List Char)
    (h : (∃ p ∈ l, p.ident0 = k) ∨
      0 < acc.countP (fun q => q.ident0 == k)) :
    0 < (l.foldl insertByKey acc).countP (fun q => q.ident0 == k) := by
  induction l generalizing acc with
  | nil =>
    rcases h with ⟨p, hp, -⟩ | h
    · simp at hp
    · simpa using h
  | cons p l ih =>
    simp only [List.foldl_cons]
    apply ih
    rcases h with ⟨q, hq, hqk⟩ | hpos
    · rcases List.mem_cons.mp hq with rfl | hql
      · right
        unfold insertByKey
        split
        · next hany =>
          obtain ⟨r, hr, hrk⟩ := List.any_eq_true.mp hany
          rw [List.countP_pos_iff]
          exact ⟨r, hr, by simpa [hqk] using hrk⟩
        · rw [List.countP_append, List.countP_singleton]
          simp [hqk]
      · exact Or.inl ⟨q, hql, hqk⟩
    · right
      unfold insertByKey
      split
      · exact hpos
      · rw [List.countP_append]
        omega

theorem collectByKey_countP_eq_one (l : List PackageT) (k : List Char)
    (h : ∃ p ∈ l, p.ident0 = k) :
    (collectByKey l).countP (fun q => q.ident0 == k) = 1 := by
  have hle := foldl_insertByKey_countP_le l [] k (by simp)
  have hpos := foldl_insertByKey_countP_pos l [] k (Or.inl h)
  unfold collectByKey
  omega

/-- Lockfile::fetch_uncached_packages (src/lockfile.rs lines 119-149)
without a cache: resolve the URL of each set element and call the external
fetch collaborator, whose returned hash is the oracle value of the URL.
The first failed URL resolution fails the whole batch.  buffer_unordered
yields results in unspecified completion order; the model fixes one order,
and only order-independent multiplicity facts are proved about it. -/
def fetch_uncached_packages (oracle : List Char → List Char) :
    List PackageT → Except Error (List PrefetchedPackage)
  | [] => .ok []
  | p :: rest =>
    match to_npm_url p.ident0 with
    | .error e => .error e
    | .ok url =>
      match fetch_uncached_packages oracle rest with
      | .error e => .error e
      | .ok others => .ok (⟨oracle url, url, p.ident0⟩ :: others)

theorem fetch_uncached_packages_names (oracle : List Char → List Char)
    (pkgs : List PackageT) (out : List PrefetchedPackage)
    (h : fetch_uncached_packages oracle pkgs = .ok out) :
    out.map PrefetchedPackage.name = pkgs.map PackageT.ident0 := by
  induction pkgs generalizing out with
  | nil =>
    simp only [fetch_uncached_packages] at h
    cases h
    simp
  | cons p rest ih =>
    simp only [fetch_uncached_packages] at h
    cases hu : to_npm_url p.ident0 with
    | error e => rw [hu] at h; cases h
    | ok url =>
      rw [hu] at h
      cases hr : fetch_uncached_packages oracle rest with
      | error e => rw [hr] at h; cases h
      | ok others =>
        rw [hr] at h
        cases h
        simp [ih others hr]

/-- Lockfile::prefetch_packages with no cache location
(src/lockfile.rs lines 46-54): deduplicate the map values into a set, then
fetch every element. -/
def prefetch_packages_no_cache (oracle : List Char → List Char)
    (values : List PackageT) : Except Error (List PrefetchedPackage) :=
  fetch_uncached_packages oracle (collectByKey values)

/-- C6: the prefetch output contains exactly one entry for the identity of
any input entry, and no identity ever appears twice in the output, even
when the input holds several entries with the same identity and different
transient metadata. -/
theorem prefetch_dedupes_by_identity (oracle : List Char → List Char)
    (l : List PackageT) (p : PackageT) (out : List PrefetchedPackage)
    (hp : p ∈ l)
    (hout : prefetch_packages_no_cache oracle l = .ok out) :
    out.countP (fun r => r.name == p.ident0) = 1 ∧
    ∀ k, out.countP (fun r => r.name == k) ≤ 1 := by
  have hnames := fetch_uncached_packages_names oracle (collectByKey l) out hout
  have hcount : ∀ k, out.countP (fun r => r.name == k) =
      (collectByKey l).countP (fun q => q.ident0 == k) := by
    intro k
    have h1 : (out.map PrefetchedPackage.name).countP (fun s => s == k) =
        out.countP (fun r => r.name == k) := List.countP_map _ _ _
    have h2 : ((collectByKey l).map PackageT.ident0).countP (fun s => s == k) =
        (collectByKey l).countP (fun q => q.ident0 == k) := List.countP_map _ _ _
    rw [← h1, hnames, h2]
  constructor
  · rw [hcount]
    exact collectByKey_countP_eq_one l p.ident0 ⟨p, hp, rfl⟩
  · intro k
    rw [hcount]
    exact foldl_insertByKey_countP_le l [] k (by simp)

/-- Witness for C6: two entries with the same identity and different
metadata produce exactly one output entry for that identity. -/
theorem prefetch_dedupes_by_identity_witness :
    List.countP (fun r => r.name == chars "a@1")
      ([⟨chars "h", chars "https://registry.npmjs.org/a/-/a-1.tgz", chars "a@1"⟩] :
        List PrefetchedPackage) = 1 :=
  (prefetch_dedupes_by_identity (fun _ => chars "h")
    [⟨chars "a@1", [], ⟨[], [], .none⟩, []⟩,
     ⟨chars "a@1", [], ⟨[], [chars "x"], .none⟩, []⟩]
    ⟨chars "a@1", [], ⟨[], [], .none⟩, []⟩
    [⟨chars "h", chars "https://registry.npmjs.org/a/-/a-1.tgz", chars "a@1"⟩]
    (by decide) rfl).1

/-- The deserialization target for a bun lockfile document
(src/lockfile.rs lines 20-37): the version field and the package list.
The workspaces field is not modelled; no property proved here touches
it. -/
structure LockfileT where
  lockfile_version : Nat
  packages : List PackageE
  deriving DecidableEq

/-- Deserialize a Lockfile from a parsed JSON value: lockfileVersion is a
required u8 field, packages defaults to empty and goes through the package
visitor; a visitor panic propagates as the panic outcome. -/
def deserializeLockfile (v : Json) : Except DeFailure LockfileT :=
  match v with
  | .obj fields =>
    match lookupField fields (chars "lockfileVersion") with
    | .none => .error (.deError (chars "missing field lockfileVersion"))
    | some (.num n) =>
      if 0 ≤ n ∧ n < 256 then
        match lookupField fields (chars "packages") with
        | .none => .ok ⟨n.toNat, []⟩
        | some (.obj pfields) =>
          match pfields.mapM (fun f =>
              match f.2 with
              | .arr xs => some (f.1, xs)
              | _ => Option.none) with
          | .none => .error (.deError (chars "invalid package entry value"))
          | some entries =>
            match visitPackages entries with
            | .error e => .error e
            | .ok pkgs => .ok ⟨n.toNat, pkgs⟩
        | some _ => .error (.deError (chars "invalid type for packages"))
      else .error (.deError (chars "invalid value for u8"))
    | some _ => .error (.deError (chars "invalid type for lockfileVersion"))
  | _ => .error (.deError (chars "invalid type: expected a lockfile object"))

/-- The observable outcome of parsing a lockfile document: a value, a
returned error, or a process-aborting panic. -/
inductive ParseOutcome
  | ok (lf : LockfileT)
  | err (e : Error)
  | panicked (msg : List Char)
  deriving DecidableEq

/-- Parsing a lockfile value as the Rust type, with serde errors lifted
into the unified error type as in the FromStr impl
(src/lockfile.rs lines 152-160). -/
def lockfile_from_value (v : Json) : ParseOutcome :=
  match deserializeLockfile v with
  | .ok lf => .ok lf
  | .error (.deError m) => .err (.ParseRustType m)
  | .error (.panicked m) => .panicked m

/-- Modelled from the spec: an unsupported lockfileVersion fails fast with
the explicit UnsupportedLockfileVersion error naming the offending value.
The gate itself is missing from the files under src, where only the error
variant declaration survives (src/error.rs lines 34-38); the supported set
is taken to be version 1, the version exhibited by the parse test of the
repository (src/lockfile.rs lines 273-282). -/
def specCheckLockfileVersion (lf : LockfileT) : Except Error LockfileT :=
  if lf.lockfile_version = 1 then .ok lf
  else .error (.UnsupportedLockfileVersion lf.lockfile_version)

/-- Lockfile parsing followed by the spec-modelled version gate. -/
def lockfile_from_value_checked (v : Json) : ParseOutcome :=
  match lockfile_from_value v with
  | .ok lf =>
    match specCheckLockfileVersion lf with
    | .ok lf' => .ok lf'
    | .error e => .err e
  | other => other

/-- C7: a document with unsupported lockfileVersion 99 fails with the
unsupported-version error naming 99, not a generic parse error, while the
supported version 1 parses; the version gate is modelled from the spec. -/
theorem unsupported_lockfile_version_named :
    lockfile_from_value_checked
        (Json.obj [(chars "lockfileVersion", Json.num 99)]) =
      .err (.UnsupportedLockfileVersion 99) ∧
    lockfile_from_value_checked
        (Json.obj [(chars "lockfileVersion", Json.num 1)]) =
      .ok ⟨1, []⟩ :=
  ⟨rfl, rfl⟩

/-- Lockfile::parse_to_value (src/lockfile.rs lines 40-43), parameterized
by the external jsonc parser collaborator: a parser error propagates, a
parse producing no value at all becomes the dedicated NoJsoncValue error,
and a value is returned.  The collaborator produces no value for the empty
document, the behaviour recorded by the repo test at src/lockfile.rs lines
263-270. -/
def parse_to_value (jsoncParse : List Char → Except Error (Option Json))
    (lockfile : List Char) : Except Error Json :=
  match jsoncParse lockfile with
  | .error e => .error e
  | .ok Option.none => .error .NoJsoncValue
  | .ok (some v) => .ok v

/-- C8: for any jsonc collaborator that yields no value on the empty
document, parsing the empty document fails with the dedicated
empty-lockfile error NoJsoncValue, not with a generic parse error. -/
theorem empty_document_empty_lockfile_error
    (jsoncParse : List Char → Except Error (Option Json))
    (h : jsoncParse (chars "") = .ok Option.none) :
    parse_to_value jsoncParse (chars "") = .error .NoJsoncValue := by
  simp [parse_to_value, h]

/-- Witness for C8 at the collaborator that yields no value on every
document, in particular the empty one. -/
theorem empty_document_empty_lockfile_error_witness :
    parse_to_value (fun _ => .ok Option.none) (chars "") =
      .error .NoJsoncValue :=
  empty_document_empty_lockfile_error (fun _ => .ok Option.none) rfl

end Bun2Nix
